import Mathlib

/-!
Verification development for the Meta Ads analytics backend.

The definitions below are shallow embeddings of the TypeScript source:
JavaScript numbers are modelled as rationals (ℚ), fallible calls as
`Except`, and the persistence layer as explicit association lists.
Each section names the source file the definitions are taken from.
-/

/-! ### Math engine (src/backend/src/utils/mathEngine.ts) -/

/-- A row of per-day metrics, as consumed by `aggregateMetrics`. -/
structure MetricRow where
  spend : ℚ
  impressions : ℚ
  clicks : ℚ
  conversions : ℚ
  cpc : ℚ
  ctr : ℚ
  roas : ℚ
deriving DecidableEq

/-- Result shape of `aggregateMetrics`. -/
structure AggregatedMetrics where
  totalSpend : ℚ
  totalImpressions : ℚ
  totalClicks : ℚ
  totalConversions : ℚ
  totalRevenue : ℚ
  avgCTR : ℚ
  avgCPC : ℚ
  avgROAS : ℚ
  avgCPM : ℚ
  avgCVR : ℚ
  roasWeightedSum : ℚ
deriving DecidableEq

/-- `safeDivide` with an explicit default value (the TS function's third
parameter): `denominator > 0 ? numerator / denominator : defaultValue`. -/
def safeDivideD (numerator denominator defaultValue : ℚ) : ℚ :=
  if 0 < denominator then numerator / denominator else defaultValue

/-- `safeDivide` at its default value `0`, as used by every call site. -/
def safeDivide (numerator denominator : ℚ) : ℚ :=
  safeDivideD numerator denominator 0

/-- Accumulator of the `rows.reduce` inside `aggregateMetrics`. -/
structure MetricTotals where
  spend : ℚ
  clicks : ℚ
  impressions : ℚ
  conversions : ℚ
  roasWeightedSum : ℚ
deriving DecidableEq

/-- The `rows.reduce` step of `aggregateMetrics`. -/
def aggregateStep (acc : MetricTotals) (row : MetricRow) : MetricTotals :=
  { spend := acc.spend + row.spend
    clicks := acc.clicks + row.clicks
    impressions := acc.impressions + row.impressions
    conversions := acc.conversions + row.conversions
    roasWeightedSum := acc.roasWeightedSum + row.roas * row.spend }

/-- The totals accumulated by `aggregateMetrics` over its rows. -/
def aggregateTotals (rows : List MetricRow) : MetricTotals :=
  rows.foldl aggregateStep
    { spend := 0, clicks := 0, impressions := 0, conversions := 0, roasWeightedSum := 0 }

/-- The all-zero result returned by `aggregateMetrics` on an empty input. -/
def zeroAggregated : AggregatedMetrics :=
  { totalSpend := 0, totalImpressions := 0, totalClicks := 0, totalConversions := 0
    totalRevenue := 0, avgCTR := 0, avgCPC := 0, avgROAS := 0, avgCPM := 0, avgCVR := 0
    roasWeightedSum := 0 }

/-- `aggregateMetrics` from mathEngine.ts: totals by reduction, then
weighted averages through `safeDivide`. -/
def aggregateMetrics (rows : List MetricRow) : AggregatedMetrics :=
  if rows.isEmpty then zeroAggregated
  else
    let totals := aggregateTotals rows
    let totalRevenue := totals.roasWeightedSum
    { totalSpend := totals.spend
      totalImpressions := totals.impressions
      totalClicks := totals.clicks
      totalConversions := totals.conversions
      totalRevenue := totalRevenue
      avgCTR := safeDivide totals.clicks totals.impressions * 100
      avgCPC := safeDivide totals.spend totals.clicks
      avgROAS := safeDivide totals.roasWeightedSum totals.spend
      avgCPM := safeDivide totals.spend totals.impressions * 1000
      avgCVR := safeDivide totals.conversions totals.clicks * 100
      roasWeightedSum := totals.roasWeightedSum }

/-- `calculateDelta` from mathEngine.ts: the `previous === 0` convention,
otherwise `safeDivide(current - previous, previous)`. -/
def calculateDelta (current previous : ℚ) : ℚ :=
  if previous = 0 then (if 0 < current then 1 else 0)
  else safeDivide (current - previous) previous

/-- Result shape of `calculateBudgetPacing`. -/
structure BudgetPacing where
  totalBudget : ℚ
  totalSpent : ℚ
  budgetRemaining : ℚ
  spentPercent : ℚ
  timeElapsedPercent : ℚ
  pacingDelta : ℚ
  pacingStatus : String
  projectedSpend : ℚ
deriving DecidableEq

/-- `calculateBudgetPacing` from mathEngine.ts. -/
def calculateBudgetPacing (totalBudget totalSpent daysElapsed totalDays : ℚ) : BudgetPacing :=
  let budgetRemaining := max (totalBudget - totalSpent) 0
  let spentPercent := safeDivide totalSpent totalBudget * 100
  let timeElapsedPercent := safeDivide daysElapsed totalDays * 100
  let pacingDelta := spentPercent - timeElapsedPercent
  let pacingStatus :=
    if |pacingDelta| < 5 then "on-track"
    else if 0 < pacingDelta then "ahead"
    else "behind"
  let dailySpendRate := safeDivide totalSpent daysElapsed
  let projectedSpend := dailySpendRate * totalDays
  { totalBudget := totalBudget
    totalSpent := totalSpent
    budgetRemaining := budgetRemaining
    spentPercent := spentPercent
    timeElapsedPercent := timeElapsedPercent
    pacingDelta := pacingDelta
    pacingStatus := pacingStatus
    projectedSpend := projectedSpend }

/-! ### Lemmas about the math engine -/

lemma aggregateTotals_go (rows : List MetricRow) (acc : MetricTotals) :
    (rows.foldl aggregateStep acc).spend = acc.spend + (rows.map MetricRow.spend).sum ∧
    (rows.foldl aggregateStep acc).clicks = acc.clicks + (rows.map MetricRow.clicks).sum ∧
    (rows.foldl aggregateStep acc).impressions
      = acc.impressions + (rows.map MetricRow.impressions).sum ∧
    (rows.foldl aggregateStep acc).conversions
      = acc.conversions + (rows.map MetricRow.conversions).sum ∧
    (rows.foldl aggregateStep acc).roasWeightedSum
      = acc.roasWeightedSum + (rows.map (fun r => r.roas * r.spend)).sum := by
  induction rows generalizing acc with
  | nil => simp
  | cons r rest ih =>
    obtain ⟨h1, h2, h3, h4, h5⟩ := ih (aggregateStep acc r)
    rw [List.foldl_cons]
    refine ⟨?_, ?_, ?_, ?_, ?_⟩
    · rw [h1]; simp only [aggregateStep, List.map_cons, List.sum_cons]; ring
    · rw [h2]; simp only [aggregateStep, List.map_cons, List.sum_cons]; ring
    · rw [h3]; simp only [aggregateStep, List.map_cons, List.sum_cons]; ring
    · rw [h4]; simp only [aggregateStep, List.map_cons, List.sum_cons]; ring
    · rw [h5]; simp only [aggregateStep, List.map_cons, List.sum_cons]; ring

lemma aggregateTotals_spend (rows : List MetricRow) :
    (aggregateTotals rows).spend = (rows.map MetricRow.spend).sum := by
  have h := aggregateTotals_go rows
    { spend := 0, clicks := 0, impressions := 0, conversions := 0, roasWeightedSum := 0 }
  simpa [aggregateTotals] using h.1

lemma aggregateTotals_clicks (rows : List MetricRow) :
    (aggregateTotals rows).clicks = (rows.map MetricRow.clicks).sum := by
  have h := aggregateTotals_go rows
    { spend := 0, clicks := 0, impressions := 0, conversions := 0, roasWeightedSum := 0 }
  simpa [aggregateTotals] using h.2.1

lemma aggregateTotals_impressions (rows : List MetricRow) :
    (aggregateTotals rows).impressions = (rows.map MetricRow.impressions).sum := by
  have h := aggregateTotals_go rows
    { spend := 0, clicks := 0, impressions := 0, conversions := 0, roasWeightedSum := 0 }
  simpa [aggregateTotals] using h.2.2.1

lemma aggregateTotals_conversions (rows : List MetricRow) :
    (aggregateTotals rows).conversions = (rows.map MetricRow.conversions).sum := by
  have h := aggregateTotals_go rows
    { spend := 0, clicks := 0, impressions := 0, conversions := 0, roasWeightedSum := 0 }
  simpa [aggregateTotals] using h.2.2.2.1

lemma aggregateTotals_roasWeightedSum (rows : List MetricRow) :
    (aggregateTotals rows).roasWeightedSum = (rows.map (fun r => r.roas * r.spend)).sum := by
  have h := aggregateTotals_go rows
    { spend := 0, clicks := 0, impressions := 0, conversions := 0, roasWeightedSum := 0 }
  simpa [aggregateTotals] using h.2.2.2.2

lemma safeDivide_mul (a b c : ℚ) :
    safeDivide a b * c = if 0 < b then c * a / b else 0 := by
  by_cases h : 0 < b <;> simp [safeDivide, safeDivideD, h] <;> ring

/-- C1: for every list of metric rows, `aggregateMetrics` returns the four
totals as sums of the row fields, `totalRevenue = sum(roas*spend)`, and the
averages computed from those totals with safe division (a quotient is 0 when
its denominator is not positive): `avgCTR = 100*clicks/impressions`,
`avgCPC = spend/clicks`, `avgCPM = 1000*spend/impressions`,
`avgCVR = 100*conversions/clicks`, `avgROAS = sum(roas*spend)/spend`
(spend-weighted); the empty list yields the all-zero structure. -/
theorem aggregateMetrics_correct (rows : List MetricRow) :
    (aggregateMetrics rows).totalSpend = (rows.map MetricRow.spend).sum ∧
    (aggregateMetrics rows).totalImpressions = (rows.map MetricRow.impressions).sum ∧
    (aggregateMetrics rows).totalClicks = (rows.map MetricRow.clicks).sum ∧
    (aggregateMetrics rows).totalConversions = (rows.map MetricRow.conversions).sum ∧
    (aggregateMetrics rows).totalRevenue = (rows.map (fun r => r.roas * r.spend)).sum ∧
    (aggregateMetrics rows).avgCTR
      = (if 0 < (rows.map MetricRow.impressions).sum
          then 100 * (rows.map MetricRow.clicks).sum / (rows.map MetricRow.impressions).sum
          else 0) ∧
    (aggregateMetrics rows).avgCPC
      = (if 0 < (rows.map MetricRow.clicks).sum
          then (rows.map MetricRow.spend).sum / (rows.map MetricRow.clicks).sum
          else 0) ∧
    (aggregateMetrics rows).avgCPM
      = (if 0 < (rows.map MetricRow.impressions).sum
          then 1000 * (rows.map MetricRow.spend).sum / (rows.map MetricRow.impressions).sum
          else 0) ∧
    (aggregateMetrics rows).avgCVR
      = (if 0 < (rows.map MetricRow.clicks).sum
          then 100 * (rows.map MetricRow.conversions).sum / (rows.map MetricRow.clicks).sum
          else 0) ∧
    (aggregateMetrics rows).avgROAS
      = (if 0 < (rows.map MetricRow.spend).sum
          then (rows.map (fun r => r.roas * r.spend)).sum / (rows.map MetricRow.spend).sum
          else 0) ∧
    aggregateMetrics [] = zeroAggregated := by
  rcases rows with _ | ⟨r, rest⟩
  · simp [aggregateMetrics, zeroAggregated]
  · have hne : ((r :: rest : List MetricRow)).isEmpty = false := rfl
    refine ⟨?_, ?_, ?_, ?_, ?_, ?_, ?_, ?_, ?_, ?_, by simp [aggregateMetrics, zeroAggregated]⟩ <;>
      simp only [aggregateMetrics, hne, Bool.false_eq_true, if_false,
        aggregateTotals_spend, aggregateTotals_clicks, aggregateTotals_impressions,
        aggregateTotals_conversions, aggregateTotals_roasWeightedSum] <;>
      first
        | rfl
        | (rw [safeDivide_mul] <;> by_cases h : (0 : ℚ) <
            (((r :: rest : List MetricRow)).map MetricRow.impressions).sum <;>
            simp [h] <;> ring)
        | (simp [safeDivide, safeDivideD])
        | (rw [safeDivide_mul] <;> by_cases h : (0 : ℚ) <
            (((r :: rest : List MetricRow)).map MetricRow.clicks).sum <;>
            simp [h] <;> ring)

/-- C8: under the claim's input conditions, `calculateBudgetPacing` returns
`spentPercent = 100*totalSpent/totalBudget` (0 when the budget is not
positive), `timeElapsedPercent = 100*daysElapsed/totalDays`,
`pacingDelta = spentPercent - timeElapsedPercent`, the on-track/ahead/behind
status from that delta, and `projectedSpend` as burn rate times `totalDays`
(burn rate 0 when `daysElapsed` is not positive); the spec's example
10000/6500/11/20 gives 65, 55, 10 and "ahead". -/
theorem calculateBudgetPacing_correct :
    (∀ totalBudget totalSpent daysElapsed totalDays : ℚ,
      0 ≤ totalBudget → 0 ≤ totalSpent → 0 ≤ daysElapsed → 1 ≤ totalDays →
      daysElapsed ≤ totalDays →
      (calculateBudgetPacing totalBudget totalSpent daysElapsed totalDays).spentPercent
        = (if 0 < totalBudget then 100 * totalSpent / totalBudget else 0) ∧
      (calculateBudgetPacing totalBudget totalSpent daysElapsed totalDays).timeElapsedPercent
        = 100 * daysElapsed / totalDays ∧
      (calculateBudgetPacing totalBudget totalSpent daysElapsed totalDays).pacingDelta
        = (calculateBudgetPacing totalBudget totalSpent daysElapsed totalDays).spentPercent
          - (calculateBudgetPacing totalBudget totalSpent daysElapsed totalDays).timeElapsedPercent ∧
      (calculateBudgetPacing totalBudget totalSpent daysElapsed totalDays).pacingStatus
        = (if |(calculateBudgetPacing totalBudget totalSpent daysElapsed totalDays).pacingDelta| < 5
            then "on-track"
            else if 0 < (calculateBudgetPacing totalBudget totalSpent daysElapsed totalDays).pacingDelta
            then "ahead" else "behind") ∧
      (calculateBudgetPacing totalBudget totalSpent daysElapsed totalDays).projectedSpend
        = (if 0 < daysElapsed then totalSpent / daysElapsed else 0) * totalDays) ∧
    ((calculateBudgetPacing 10000 6500 11 20).spentPercent = 65 ∧
     (calculateBudgetPacing 10000 6500 11 20).timeElapsedPercent = 55 ∧
     (calculateBudgetPacing 10000 6500 11 20).pacingDelta = 10 ∧
     (calculateBudgetPacing 10000 6500 11 20).pacingStatus = "ahead") := by
  constructor
  · intro totalBudget totalSpent daysElapsed totalDays _ _ _ htd _
    have hpos : (0 : ℚ) < totalDays := lt_of_lt_of_le one_pos htd
    refine ⟨?_, ?_, rfl, rfl, ?_⟩
    · by_cases h : 0 < totalBudget <;>
        simp [calculateBudgetPacing, safeDivide, safeDivideD, h] <;> ring
    · simp [calculateBudgetPacing, safeDivide, safeDivideD, hpos]; ring
    · by_cases h : 0 < daysElapsed <;>
        simp [calculateBudgetPacing, safeDivide, safeDivideD, h]
  · refine ⟨?_, ?_, ?_, ?_⟩ <;> norm_num [calculateBudgetPacing, safeDivide, safeDivideD]

/-- Witness for C8 at the spec's concrete example. -/
theorem calculateBudgetPacing_correct_witness :
    (calculateBudgetPacing 10000 6500 11 20).timeElapsedPercent = 100 * 11 / 20 :=
  (calculateBudgetPacing_correct.1 10000 6500 11 20 (by norm_num) (by norm_num)
    (by norm_num) (by norm_num) (by norm_num)).2.1

/-- C9 counterexample: the claim says `calculateDelta(current, previous) =
(current - previous)/previous` for every nonzero `previous`, but for the
negative denominator `previous = -10` the code's `safeDivide` returns its
default 0 instead of the quotient -1. -/
theorem calculateDelta_claim_counterexample :
    calculateDelta 0 (-10) = 0 ∧ ((0 : ℚ) - (-10)) / (-10) = -1 ∧
    calculateDelta 0 (-10) ≠ ((0 : ℚ) - (-10)) / (-10) := by
  refine ⟨?_, by norm_num, ?_⟩ <;> norm_num [calculateDelta, safeDivide, safeDivideD]

/-- C9 (amended): `calculateDelta(current, previous)` equals
`(current - previous)/previous` when `previous > 0`, equals 1 or 0 by the
sign convention when `previous = 0`, and equals 0 when `previous < 0`; in
particular the spec's three examples hold. -/
theorem calculateDelta_correct :
    (∀ current previous : ℚ, 0 < previous →
      calculateDelta current previous = (current - previous) / previous) ∧
    (∀ current : ℚ, calculateDelta current 0 = if 0 < current then 1 else 0) ∧
    (∀ current previous : ℚ, previous < 0 → calculateDelta current previous = 0) ∧
    calculateDelta 120 100 = 1 / 5 ∧ calculateDelta 50 0 = 1 ∧ calculateDelta 0 0 = 0 := by
  refine ⟨?_, ?_, ?_, ?_, ?_, ?_⟩
  · intro current previous h
    simp [calculateDelta, safeDivide, safeDivideD, h, ne_of_gt h]
  · intro current; simp [calculateDelta]
  · intro current previous h
    simp [calculateDelta, safeDivide, safeDivideD, ne_of_lt h, not_lt.mpr (le_of_lt h)]
  · norm_num [calculateDelta, safeDivide, safeDivideD]
  · norm_num [calculateDelta]
  · norm_num [calculateDelta]

/-- Witness for C9's amended theorem at the spec's example `(120, 100)`. -/
theorem calculateDelta_correct_witness :
    calculateDelta 120 100 = (120 - 100) / 100 :=
  calculateDelta_correct.1 120 100 (by norm_num)

/-! ### Meta API client retry logic (src/unnamed, MetaApiClient.retryWithBackoff) -/

/-- Shape of the error inspected by `retryWithBackoff`: an optional HTTP
status (`error.response?.status`) and an optional error code (`error.code`). -/
structure ApiError where
  status : Option Nat
  code : Option String
deriving DecidableEq

/-- The retryability test of `retryWithBackoff`: HTTP 429, HTTP 5xx,
`ECONNABORTED` (timeout) or `ENOTFOUND` (DNS failure). -/
def isRetryable (e : ApiError) : Bool :=
  e.status == some 429 ||
  (match e.status with
   | some s => 500 ≤ s
   | none => false) ||
  e.code == some "ECONNABORTED" ||
  e.code == some "ENOTFOUND"

/-- One attempt of the wrapped call is modelled by its outcome at a given
attempt index; `retryAux fn maxRetries baseDelay retries` returns the final
outcome together with the list of sleep delays performed, mirroring the
recursion of `retryWithBackoff`. -/
def retryAux {α : Type} (fn : Nat → Except ApiError α)
    (maxRetries baseDelay retries : Nat) : Except ApiError α × List Nat :=
  match fn retries with
  | .ok a => (.ok a, [])
  | .error e =>
    if h : maxRetries ≤ retries then (.error e, [])
    else if !isRetryable e then (.error e, [])
    else
      let delay := baseDelay * 2 ^ retries
      let rest := retryAux fn maxRetries baseDelay (retries + 1)
      (rest.1, delay :: rest.2)
termination_by maxRetries - retries
decreasing_by omega

/-- `retryWithBackoff` starts at attempt index 0; the client's defaults are
`maxRetries = 4`, `baseDelay = 2000`. -/
def retryWithBackoff {α : Type} (fn : Nat → Except ApiError α)
    (maxRetries baseDelay : Nat) : Except ApiError α × List Nat :=
  retryAux fn maxRetries baseDelay 0

/-- The expected backoff schedule: `k` sleeps starting at attempt index `r`. -/
def delaysFrom (b r k : Nat) : List Nat :=
  (List.range k).map (fun i => b * 2 ^ (r + i))

lemma delaysFrom_succ (b r k : Nat) :
    delaysFrom b r (k + 1) = b * 2 ^ r :: delaysFrom b (r + 1) k := by
  unfold delaysFrom
  rw [List.range_succ_eq_map]
  simp only [List.map_cons, List.map_map]
  refine List.cons_eq_cons.mpr ⟨by simp, ?_⟩
  apply List.map_congr_left
  intro i _
  simp only [Function.comp_apply, Nat.succ_eq_add_one]
  congr 2
  omega

lemma retryAux_delays_pow {α : Type} (fn : Nat → Except ApiError α)
    (maxRetries baseDelay : Nat) : ∀ n retries, maxRetries - retries = n →
    (retryAux fn maxRetries baseDelay retries).2 =
      delaysFrom baseDelay retries (retryAux fn maxRetries baseDelay retries).2.length := by
  intro n
  induction n with
  | zero =>
    intro retries hn
    rw [retryAux]
    have hle : maxRetries ≤ retries := by omega
    cases fn retries with
    | ok a => simp [delaysFrom]
    | error e => simp [hle, delaysFrom]
  | succ n ih =>
    intro retries hn
    rw [retryAux]
    cases fn retries with
    | ok a => simp [delaysFrom]
    | error e =>
      have hlt : ¬ maxRetries ≤ retries := by omega
      by_cases hr : isRetryable e
      · have ihr := ih (retries + 1) (by omega)
        simp only [hlt, dif_neg, not_false_iff, hr, Bool.not_true, if_false,
          Bool.false_eq_true]
        rw [List.length_cons, delaysFrom_succ]
        exact congrArg (List.cons (baseDelay * 2 ^ retries)) ihr
      · simp [hlt, hr, delaysFrom]

lemma retryAux_all_retryable_errors {α : Type} (fn : Nat → Except ApiError α)
    (maxRetries baseDelay : Nat) (es : Nat → ApiError) : ∀ n retries,
    maxRetries - retries = n → retries ≤ maxRetries →
    (∀ i, retries ≤ i → i ≤ maxRetries → fn i = .error (es i)) →
    (∀ i, retries ≤ i → i < maxRetries → isRetryable (es i) = true) →
    retryAux fn maxRetries baseDelay retries =
      (.error (es maxRetries), delaysFrom baseDelay retries (maxRetries - retries)) := by
  intro n
  induction n with
  | zero =>
    intro retries hn hle hfn _
    have heq : retries = maxRetries := by omega
    rw [retryAux, hfn retries le_rfl (by omega)]
    subst heq
    simp [delaysFrom]
  | succ n ih =>
    intro retries hn hle hfn hre
    have hlt : ¬ maxRetries ≤ retries := by omega
    rw [retryAux, hfn retries le_rfl (by omega)]
    simp only [hlt, dif_neg, not_false_iff, hre retries le_rfl (by omega), Bool.not_true,
      if_false, Bool.false_eq_true]
    rw [ih (retries + 1) (by omega) (by omega)
      (fun i h1 h2 => hfn i (by omega) h2) (fun i h1 h2 => hre i (by omega) h2)]
    have hrange : maxRetries - retries = n + 1 := by omega
    have hsub : maxRetries - (retries + 1) = n := by omega
    rw [hrange, hsub, delaysFrom_succ]

/-- C3: the retry wrapper retries only rate-limit (429), server (5xx),
timeout (`ECONNABORTED`) or DNS (`ENOTFOUND`) failures, sleeping
`baseDelay * 2 ^ attempt` before each retry; with the defaults (4 retries,
base 2000 ms) an always-retryably-failing call sleeps exactly 2000, 4000,
8000, 16000 ms and then raises the last underlying error, while a
non-retryable failure propagates immediately with zero retries and sleeps. -/
theorem retryWithBackoff_correct :
    (∀ (α : Type) (fn : Nat → Except ApiError α) (e : ApiError),
      fn 0 = .error e → isRetryable e = false →
      retryWithBackoff fn 4 2000 = (.error e, [])) ∧
    (∀ (α : Type) (fn : Nat → Except ApiError α) (es : Nat → ApiError),
      (∀ i, i ≤ 4 → fn i = .error (es i)) →
      (∀ i, i < 4 → isRetryable (es i) = true) →
      retryWithBackoff fn 4 2000 = (.error (es 4), [2000, 4000, 8000, 16000])) ∧
    (∀ (α : Type) (fn : Nat → Except ApiError α) (maxRetries baseDelay : Nat),
      (retryWithBackoff fn maxRetries baseDelay).2 =
        (List.range (retryWithBackoff fn maxRetries baseDelay).2.length).map
          (fun i => baseDelay * 2 ^ i)) := by
  refine ⟨?_, ?_, ?_⟩
  · intro α fn e hfn hnr
    rw [retryWithBackoff, retryAux, hfn]
    simp [hnr]
  · intro α fn es hfn hre
    have h := retryAux_all_retryable_errors fn 4 2000 es 4 0 rfl (by omega)
      (fun i _ h2 => hfn i h2) (fun i _ h2 => hre i h2)
    rw [retryWithBackoff, h]
    norm_num [delaysFrom, List.range_succ]
  · intro α fn maxRetries baseDelay
    have h := retryAux_delays_pow fn maxRetries baseDelay (maxRetries - 0) 0 rfl
    simpa [delaysFrom, retryWithBackoff] using h

/-- Witness for C3: a call that always fails with HTTP 500 exhausts the four
default retries with the exact backoff schedule, and a call failing with
HTTP 401 propagates immediately. -/
theorem retryWithBackoff_correct_witness :
    retryWithBackoff (fun _ => (.error ⟨some 500, none⟩ : Except ApiError Unit)) 4 2000
      = (.error ⟨some 500, none⟩, [2000, 4000, 8000, 16000]) ∧
    retryWithBackoff (fun _ => (.error ⟨some 401, none⟩ : Except ApiError Unit)) 4 2000
      = (.error ⟨some 401, none⟩, []) := by
  constructor
  · exact retryWithBackoff_correct.2.1 Unit (fun _ => .error ⟨some 500, none⟩)
      (fun _ => ⟨some 500, none⟩) (fun i _ => rfl) (fun i _ => rfl)
  · exact retryWithBackoff_correct.1 Unit (fun _ => .error ⟨some 401, none⟩)
      ⟨some 401, none⟩ rfl rfl

/-! ### Sync orchestrator (SyncService.runFullSync, quoted in src/PROGRESS.md) -/

/-- Per-phase created/updated counters. -/
structure PhaseCounts where
  created : Nat
  updated : Nat
deriving DecidableEq

/-- The `stats` record of a sync run. -/
structure SyncStats where
  campaigns : PhaseCounts
  adsets : PhaseCounts
  ads : PhaseCounts
  metricsCreated : Nat
deriving DecidableEq

/-- The `SyncResult` returned by `runFullSync` (duration omitted: wall-clock
time is not modelled). -/
structure SyncResult where
  success : Bool
  stats : SyncStats
  errors : List String
deriving DecidableEq

/-- Outcome of one sync phase over a database of type `σ`: either the phase
statistics plus the updated database, or a thrown error message plus the
database as already modified before the throw (a throwing phase keeps the
writes it made; there is no transaction around a phase). -/
inductive PhaseOutcome (σ τ : Type) where
  | ok (stats : τ) (db : σ)
  | fail (msg : String) (db : σ)

/-- Database state after a phase, whether it succeeded or threw. -/
def PhaseOutcome.db {σ τ : Type} : PhaseOutcome σ τ → σ
  | .ok _ d => d
  | .fail _ d => d

/-- The (phase-tagged) error list contributed by one phase: empty on
success, one tagged message on a throw, as pushed by the catch blocks. -/
def phaseErrors {σ τ : Type} (tag : String) : PhaseOutcome σ τ → List String
  | .ok _ _ => []
  | .fail m _ => [tag ++ m]

/-- The phase statistics, or the zero-initialised default when the phase
threw (the code initialises `stats` before the phases run). -/
def PhaseOutcome.statsD {σ τ : Type} (dflt : τ) : PhaseOutcome σ τ → τ
  | .ok s _ => s
  | .fail _ dflt2 => dflt

/-- `runFullSync`: the four phases run in order (campaigns, ad sets, ads,
daily metrics), each wrapped in its own catch that appends a phase-tagged
message and lets the next phase run; the function is total — it always
returns a `SyncResult` (the outer catch of the source is unreachable since
every phase failure is already caught). -/
def runFullSync {σ : Type}
    (syncCampaigns syncAdSets syncAds : σ → PhaseOutcome σ PhaseCounts)
    (syncMetricsPhase : σ → PhaseOutcome σ Nat) (db : σ) : SyncResult × σ :=
  let r1 := syncCampaigns db
  let e1 := phaseErrors "Campaign sync error: " r1
  let r2 := syncAdSets r1.db
  let e2 := phaseErrors "Ad set sync error: " r2
  let r3 := syncAds r2.db
  let e3 := phaseErrors "Ads sync error: " r3
  let r4 := syncMetricsPhase r3.db
  let e4 := phaseErrors "Metrics sync error: " r4
  let errors := e1 ++ e2 ++ e3 ++ e4
  ({ success := errors.isEmpty
     stats := { campaigns := r1.statsD ⟨0, 0⟩, adsets := r2.statsD ⟨0, 0⟩
                ads := r3.statsD ⟨0, 0⟩, metricsCreated := r4.statsD 0 }
     errors := errors }, r4.db)

/-- C2: `runFullSync` collects exactly the phase-tagged error messages of
the failing phases in phase order, feeds every later phase the database
state left by the previous one (so all four phases execute regardless of
earlier failures), reports `success = true` iff the error list is empty,
and — since the orchestrator only threads the database through the phases —
any database property preserved by the later phases (such as the presence
of a record persisted by an earlier phase) still holds at the end. -/
theorem runFullSync_correct :
    (∀ (σ : Type) (c a d : σ → PhaseOutcome σ PhaseCounts)
      (m : σ → PhaseOutcome σ Nat) (db : σ),
      (runFullSync c a d m db).1.errors
        = phaseErrors "Campaign sync error: " (c db)
          ++ phaseErrors "Ad set sync error: " (a (c db).db)
          ++ phaseErrors "Ads sync error: " (d (a (c db).db).db)
          ++ phaseErrors "Metrics sync error: " (m (d (a (c db).db).db).db) ∧
      (runFullSync c a d m db).2 = (m (d (a (c db).db).db).db).db ∧
      ((runFullSync c a d m db).1.success = true ↔ (runFullSync c a d m db).1.errors = [])) ∧
    (∀ (σ : Type) (c a d : σ → PhaseOutcome σ PhaseCounts)
      (m : σ → PhaseOutcome σ Nat) (db : σ) (R : σ → Prop),
      (∀ s, R s → R ((a s).db)) → (∀ s, R s → R ((d s).db)) → (∀ s, R s → R ((m s).db)) →
      R ((c db).db) → R ((runFullSync c a d m db).2)) := by
  constructor
  · intro σ c a d m db
    refine ⟨rfl, rfl, ?_⟩
    simp [runFullSync, List.isEmpty_iff]
  · intro σ c a d m db R ha hd hm hc
    exact hm _ (hd _ (ha _ hc))

/-- Witness for C2: the spec's partial-failure scenario — the ad-set phase
throws, the campaign persisted in phase 1 survives, the later phases run,
`success = false`, and `errors` is exactly one ad-set-tagged message. -/
theorem runFullSync_correct_witness :
    (runFullSync (fun db => .ok ⟨1, 0⟩ ("c1" :: db)) (fun db => .fail "boom" db)
        (fun db => .ok ⟨0, 0⟩ db) (fun db => .ok 0 db) ([] : List String)).1.errors
      = ["Ad set sync error: boom"] ∧
    (runFullSync (fun db => .ok ⟨1, 0⟩ ("c1" :: db)) (fun db => .fail "boom" db)
        (fun db => .ok ⟨0, 0⟩ db) (fun db => .ok 0 db) ([] : List String)).1.success
      = false ∧
    "c1" ∈ (runFullSync (fun db => .ok ⟨1, 0⟩ ("c1" :: db)) (fun db => .fail "boom" db)
        (fun db => .ok ⟨0, 0⟩ db) (fun db => .ok 0 db) ([] : List String)).2 := by
  refine ⟨by decide, by decide, ?_⟩
  exact runFullSync_correct.2 (List String) (fun db => .ok ⟨1, 0⟩ ("c1" :: db))
    (fun db => .fail "boom" db) (fun db => .ok ⟨0, 0⟩ db) (fun db => .ok 0 db) []
    (fun s => "c1" ∈ s) (fun s h => h) (fun s h => h) (fun s h => h)
    (List.mem_cons_self _ _)

/-! ### Metrics phase upsert (SyncService.syncMetrics, quoted in src/PROGRESS.md) -/

/-- Natural key of a DailyMetric row: the Prisma unique constraint
`(entityId, entityType, date)`. -/
structure MetricKey where
  entityId : String
  entityType : String
  date : String
deriving DecidableEq

/-- The non-key columns written by the metrics upsert (identical in the
`update` and `create` branches of the source). -/
structure MetricVals where
  spend : ℚ
  impressions : ℚ
  clicks : ℚ
  conversions : ℚ
  cpc : ℚ
  ctr : ℚ
  roas : ℚ
deriving DecidableEq

/-- One daily insight record returned by the remote API. -/
structure Insight where
  dateStart : String
  spend : ℚ
  impressions : ℚ
  clicks : ℚ
  cpc : ℚ
  ctr : ℚ
  actions : List (String × ℚ)
deriving DecidableEq

/-- Conversion extraction: find the `offsite_conversion.fb_pixel_purchase`
action type; absence yields zero conversions, not an error. -/
def insightConversions (i : Insight) : ℚ :=
  match i.actions.find? (fun a => decide (a.1 = "offsite_conversion.fb_pixel_purchase")) with
  | some a => a.2
  | none => 0

/-- The column values written for one insight, including the placeholder
ROAS `conversions * 50 / spend` used when spend and conversions are
positive. -/
def insightVals (i : Insight) : MetricVals :=
  let conversions := insightConversions i
  let roas := if 0 < i.spend ∧ 0 < conversions then conversions * 50 / i.spend else 0
  { spend := i.spend, impressions := i.impressions, clicks := i.clicks
    conversions := conversions, cpc := i.cpc, ctr := i.ctr, roas := roas }

/-- The DailyMetric table, as the list of its keyed rows. -/
abbrev MetricTable := List (MetricKey × MetricVals)

/-- Does the table already hold a row with this key? -/
def containsKey (tbl : MetricTable) (k : MetricKey) : Bool :=
  tbl.any (fun r => decide (r.1 = k))

/-- `prisma.dailyMetric.upsert`: update the row with this key when present
(last-write-wins), otherwise insert a new row. -/
def upsertMetric (tbl : MetricTable) (k : MetricKey) (v : MetricVals) : MetricTable :=
  if containsKey tbl k then tbl.map (fun r => if r.1 = k then (k, v) else r)
  else tbl ++ [(k, v)]

/-- The upsert key used by the metrics phase for one campaign's insight. -/
def insightKey (campaignId : String) (i : Insight) : MetricKey :=
  { entityId := campaignId, entityType := "campaign", date := i.dateStart }

/-- The metrics phase for one campaign: upsert each returned insight in
order. -/
def syncMetricsCampaign (campaignId : String) (insights : List Insight)
    (tbl : MetricTable) : MetricTable :=
  insights.foldl (fun t i => upsertMetric t (insightKey campaignId i) (insightVals i)) tbl

/-- Look up the (first) row with this key. -/
def lookupMetric (tbl : MetricTable) (k : MetricKey) : Option MetricVals :=
  (tbl.find? (fun r => decide (r.1 = k))).map Prod.snd

/-- Number of rows with this key. -/
def countKey (tbl : MetricTable) (k : MetricKey) : Nat :=
  (tbl.filter (fun r => decide (r.1 = k))).length

/-- The values of the last insight for a given key, if any. -/
def lastInsightVals (campaignId : String) (insights : List Insight)
    (k : MetricKey) : Option MetricVals :=
  (insights.reverse.find? (fun i => decide (insightKey campaignId i = k))).map insightVals

/-! Lemmas about the upsert table. -/

lemma map_replace_of_not_contains (tbl : MetricTable) (k : MetricKey) (v : MetricVals)
    (h : containsKey tbl k = false) :
    tbl.map (fun r => if r.1 = k then (k, v) else r) = tbl := by
  induction tbl with
  | nil => rfl
  | cons r rest ih =>
    simp only [containsKey, List.any_cons, Bool.or_eq_false_iff,
      decide_eq_false_iff_not] at h
    rw [List.map_cons, if_neg h.1, ih h.2]

lemma find?_eq_none_of_not_contains (tbl : MetricTable) (k : MetricKey)
    (h : containsKey tbl k = false) :
    tbl.find? (fun r => decide (r.1 = k)) = none := by
  rw [List.find?_eq_none]
  intro x hx
  simp only [containsKey, List.any_eq_false, decide_eq_true_eq] at h
  simp only [decide_eq_true_eq]
  exact h x hx

lemma find?_map_replace (tbl : MetricTable) (k : MetricKey) (v : MetricVals) (k' : MetricKey) :
    (tbl.map (fun r => if r.1 = k then (k, v) else r)).find? (fun r => decide (r.1 = k'))
      = if k' = k then (if containsKey tbl k then some (k, v) else none)
        else tbl.find? (fun r => decide (r.1 = k')) := by
  induction tbl with
  | nil => by_cases h : k' = k <;> simp [containsKey, h]
  | cons r rest ih =>
    rw [List.map_cons]
    by_cases hr : r.1 = k
    · rw [if_pos hr]
      by_cases hk : k' = k
      · subst hk
        have hc : containsKey (r :: rest) k' = true := by
          simp [containsKey, List.any_cons, hr]
        rw [List.find?_cons_of_pos _ (by simp), if_pos rfl, hc, if_pos rfl]
      · rw [List.find?_cons_of_neg _ (by simp; exact fun h => hk h.symm), ih]
        rw [if_neg hk, if_neg hk,
          List.find?_cons_of_neg _ (by simp; exact fun h => hk ((hr.symm.trans h).symm))]
    · rw [if_neg hr]
      by_cases hpr : r.1 = k'
      · have hk : ¬ k' = k := fun h => hr (hpr.trans h)
        rw [List.find?_cons_of_pos _ (by simp [hpr]), if_neg hk,
          List.find?_cons_of_pos _ (by simp [hpr])]
      · rw [List.find?_cons_of_neg _ (by simp [hpr]), ih]
        by_cases hk : k' = k
        · subst hk
          have hcc : containsKey (r :: rest) k' = containsKey rest k' := by
            simp [containsKey, List.any_cons, hr]
          rw [if_pos rfl, if_pos rfl, hcc]
        · rw [if_neg hk, if_neg hk, List.find?_cons_of_neg _ (by simp [hpr])]

lemma lookupMetric_upsert (tbl : MetricTable) (k k' : MetricKey) (v : MetricVals) :
    lookupMetric (upsertMetric tbl k v) k'
      = if k' = k then some v else lookupMetric tbl k' := by
  unfold upsertMetric lookupMetric
  by_cases hc : containsKey tbl k
  · rw [if_pos hc, find?_map_replace]
    by_cases hk : k' = k
    · rw [if_pos hk, if_pos hk, hc, if_pos rfl]
      rfl
    · rw [if_neg hk, if_neg hk]
  · have hcf : containsKey tbl k = false := by simpa using hc
    rw [if_neg hc, List.find?_append]
    by_cases hk : k' = k
    · subst hk
      rw [find?_eq_none_of_not_contains tbl k' hcf, if_pos rfl]
      simp
    · have hne : ¬ k = k' := fun h => hk h.symm
      have hnone : List.find? (fun r => decide (r.1 = k')) [(k, v)] = none := by
        simp [hne]
      rw [hnone, if_neg hk]
      cases tbl.find? (fun r => decide (r.1 = k')) <;> rfl

lemma containsKey_map_replace (k k' : MetricKey) (v : MetricVals) (tbl : MetricTable) :
    containsKey (tbl.map (fun r => if r.1 = k' then (k', v) else r)) k
      = containsKey tbl k := by
  induction tbl with
  | nil => rfl
  | cons r rest ih =>
    simp only [List.map_cons, containsKey, List.any_cons] at ih ⊢
    rw [ih]
    congr 1
    by_cases hr : r.1 = k'
    · simp [hr]
    · simp [hr]

lemma countKey_map_replace (k k' : MetricKey) (v : MetricVals) (tbl : MetricTable) :
    countKey (tbl.map (fun r => if r.1 = k' then (k', v) else r)) k = countKey tbl k := by
  induction tbl with
  | nil => rfl
  | cons r rest ih =>
    simp only [List.map_cons, countKey, List.filter_cons] at ih ⊢
    by_cases hr : r.1 = k'
    · by_cases hk : r.1 = k
      · have heq : k' = k := hr ▸ hk
        subst heq
        simp [hk, ih]
      · have hne : ¬ k' = k := fun h => hk (hr.trans h)
        simp [hr, hk, hne, ih]
    · by_cases hk : r.1 = k
      · have hne : ¬ k = k' := fun h => hr (hk.trans h)
        simp [hr, hk, hne, ih]
      · simp [hr, hk, ih]

lemma containsKey_upsert (tbl : MetricTable) (k k' : MetricKey) (v : MetricVals) :
    containsKey (upsertMetric tbl k' v) k = (containsKey tbl k || decide (k = k')) := by
  unfold upsertMetric
  by_cases hc : containsKey tbl k'
  · rw [if_pos hc, containsKey_map_replace]
    by_cases hk : k = k'
    · subst hk
      simp [hc]
    · simp [hk]
  · rw [if_neg hc]
    unfold containsKey
    rw [List.any_append]
    simp [eq_comm]

lemma countKey_upsert (tbl : MetricTable) (k k' : MetricKey) (v : MetricVals) :
    countKey (upsertMetric tbl k' v) k
      = if k = k' ∧ containsKey tbl k' = false then countKey tbl k + 1
        else countKey tbl k := by
  unfold upsertMetric
  by_cases hc : containsKey tbl k'
  · rw [if_pos hc, countKey_map_replace]
    simp [hc]
  · have hcf : containsKey tbl k' = false := by simpa using hc
    rw [if_neg hc]
    unfold countKey
    rw [List.filter_append, List.length_append]
    by_cases hk : k = k'
    · subst hk
      simp [hcf]
    · have h1 : ¬ (k', v).1 = k := fun h => hk h.symm
      simp [h1, hk, hcf]

lemma containsKey_true_iff (tbl : MetricTable) (k : MetricKey) :
    containsKey tbl k = true ↔ 0 < countKey tbl k := by
  constructor
  · intro h
    obtain ⟨x, hx, hp⟩ := List.any_eq_true.mp h
    have hm : x ∈ tbl.filter (fun r => decide (r.1 = k)) := List.mem_filter.mpr ⟨hx, hp⟩
    exact List.length_pos.mpr (List.ne_nil_of_mem hm)
  · intro h
    obtain ⟨x, hx⟩ := List.exists_mem_of_length_pos h
    obtain ⟨hmem, hp⟩ := List.mem_filter.mp hx
    exact List.any_eq_true.mpr ⟨x, hmem, hp⟩

lemma lookupMetric_sync (campaignId : String) (insights : List Insight) :
    ∀ (tbl : MetricTable) (k : MetricKey),
    lookupMetric (syncMetricsCampaign campaignId insights tbl) k
      = match lastInsightVals campaignId insights k with
        | some v => some v
        | none => lookupMetric tbl k := by
  induction insights with
  | nil => intro tbl k; simp [syncMetricsCampaign, lastInsightVals]
  | cons i rest ih =>
    intro tbl k
    have hfold : syncMetricsCampaign campaignId (i :: rest) tbl
        = syncMetricsCampaign campaignId rest
            (upsertMetric tbl (insightKey campaignId i) (insightVals i)) := rfl
    rw [hfold, ih]
    have hlast : lastInsightVals campaignId (i :: rest) k
        = match lastInsightVals campaignId rest k with
          | some v => some v
          | none => if insightKey campaignId i = k then some (insightVals i) else none := by
      unfold lastInsightVals
      rw [List.reverse_cons, List.find?_append]
      cases hfr : List.find? (fun j => decide (insightKey campaignId j = k)) rest.reverse with
      | some j => simp [hfr, Option.orElse]
      | none =>
        by_cases hik : insightKey campaignId i = k <;> simp [hfr, Option.orElse, hik]
    rw [hlast]
    cases hlv : lastInsightVals campaignId rest k with
    | some v => simp
    | none =>
      simp only
      rw [lookupMetric_upsert]
      by_cases hik : insightKey campaignId i = k
      · rw [if_pos hik, if_pos hik.symm]
      · rw [if_neg hik, if_neg (fun h => hik h.symm)]

lemma countKey_sync (campaignId : String) (insights : List Insight) :
    ∀ (tbl : MetricTable) (k : MetricKey),
    countKey (syncMetricsCampaign campaignId insights tbl) k
      = if k ∈ insights.map (insightKey campaignId) ∧ containsKey tbl k = false
        then countKey tbl k + 1 else countKey tbl k := by
  induction insights with
  | nil => intro tbl k; simp [syncMetricsCampaign]
  | cons i rest ih =>
    intro tbl k
    have hfold : syncMetricsCampaign campaignId (i :: rest) tbl
        = syncMetricsCampaign campaignId rest
            (upsertMetric tbl (insightKey campaignId i) (insightVals i)) := rfl
    rw [hfold, ih, countKey_upsert, containsKey_upsert]
    by_cases hik : k = insightKey campaignId i
    · subst hik
      by_cases hc : containsKey tbl (insightKey campaignId i)
      · simp [hc]
      · have hcf : containsKey tbl (insightKey campaignId i) = false := by simpa using hc
        simp [hcf]
    · simp [hik]

/-- C4: metric ingestion is idempotent. Upserts are keyed by
(entityId, entityType, date) with last-write-wins semantics: running the
metrics phase a second time with identical remote data changes no lookup
result, and for a key present in the remote data a table that initially
held at most one row for that key holds exactly one row for it after the
first run and still exactly one (with identical values) after the second. -/
theorem syncMetrics_idempotent :
    (∀ (campaignId : String) (insights : List Insight) (tbl : MetricTable) (k : MetricKey),
      lookupMetric (syncMetricsCampaign campaignId insights
          (syncMetricsCampaign campaignId insights tbl)) k
        = lookupMetric (syncMetricsCampaign campaignId insights tbl) k) ∧
    (∀ (campaignId : String) (insights : List Insight) (tbl : MetricTable) (k : MetricKey),
      countKey tbl k ≤ 1 → k ∈ insights.map (insightKey campaignId) →
      countKey (syncMetricsCampaign campaignId insights tbl) k = 1 ∧
      countKey (syncMetricsCampaign campaignId insights
          (syncMetricsCampaign campaignId insights tbl)) k = 1) := by
  constructor
  · intro campaignId insights tbl k
    rw [lookupMetric_sync, lookupMetric_sync]
    cases lastInsightVals campaignId insights k <;> simp
  · intro campaignId insights tbl k hle hmem
    have h1 : countKey (syncMetricsCampaign campaignId insights tbl) k = 1 := by
      rw [countKey_sync]
      by_cases hc : containsKey tbl k
      · have hpos := (containsKey_true_iff tbl k).mp hc
        have hcc : ¬ (k ∈ insights.map (insightKey campaignId) ∧ containsKey tbl k = false) := by
          intro hand
          rw [hand.2] at hc
          exact Bool.false_ne_true hc
        rw [if_neg hcc]
        omega
      · have hcf : containsKey tbl k = false := by simpa using hc
        have hzero : countKey tbl k = 0 := by
          by_contra hnz
          exact hc ((containsKey_true_iff tbl k).mpr (Nat.pos_of_ne_zero hnz))
        rw [if_pos ⟨hmem, hcf⟩, hzero]
    refine ⟨h1, ?_⟩
    rw [countKey_sync]
    have hc1 : containsKey (syncMetricsCampaign campaignId insights tbl) k = true :=
      (containsKey_true_iff _ k).mpr (by omega)
    have hcc : ¬ (k ∈ insights.map (insightKey campaignId) ∧
        containsKey (syncMetricsCampaign campaignId insights tbl) k = false) := by
      intro hand
      rw [hand.2] at hc1
      exact Bool.false_ne_true hc1
    rw [if_neg hcc, h1]

/-- Witness for C4: ingesting one concrete insight twice into an empty
table leaves exactly one row for its key. -/
theorem syncMetrics_idempotent_witness :
    countKey
      (syncMetricsCampaign "c1"
        [{ dateStart := "2024-01-01", spend := 5, impressions := 100, clicks := 10,
           cpc := 1 / 2, ctr := 10,
           actions := [("offsite_conversion.fb_pixel_purchase", 2)] }] [])
      { entityId := "c1", entityType := "campaign", date := "2024-01-01" } = 1 ∧
    countKey
      (syncMetricsCampaign "c1"
        [{ dateStart := "2024-01-01", spend := 5, impressions := 100, clicks := 10,
           cpc := 1 / 2, ctr := 10,
           actions := [("offsite_conversion.fb_pixel_purchase", 2)] }]
        (syncMetricsCampaign "c1"
          [{ dateStart := "2024-01-01", spend := 5, impressions := 100, clicks := 10,
             cpc := 1 / 2, ctr := 10,
             actions := [("offsite_conversion.fb_pixel_purchase", 2)] }] []))
      { entityId := "c1", entityType := "campaign", date := "2024-01-01" } = 1 :=
  syncMetrics_idempotent.2 "c1"
    [{ dateStart := "2024-01-01", spend := 5, impressions := 100, clicks := 10,
       cpc := 1 / 2, ctr := 10,
       actions := [("offsite_conversion.fb_pixel_purchase", 2)] }] []
    { entityId := "c1", entityType := "campaign", date := "2024-01-01" }
    (by decide) (by decide)

/-! ### Anomaly detection (GET /api/ai/detect-anomalies, src/unnamed ai route) -/

/-- A DailyMetric row as read by the anomaly detector (the `date` is an
abstract day stamp; the route receives rows ordered by date descending). -/
structure DMetric where
  entityType : String
  entityId : String
  date : ℤ
  spend : ℚ
  ctr : ℚ
  cpc : ℚ
  roas : ℚ
deriving DecidableEq

/-- An emitted anomaly. -/
structure Anomaly where
  entityId : String
  entityType : String
  metricName : String
  expectedValue : ℚ
  actualValue : ℚ
  deviationPercent : ℚ
  severity : String
  date : ℤ
deriving DecidableEq

/-- The grouping key string built by the route. -/
def metricGroupKey (m : DMetric) : String :=
  m.entityType ++ "_" ++ m.entityId

/-- Key insertion preserving first-seen order (a JS `Map` iterates its keys
in insertion order). -/
def addKey (ks : List String) (k : String) : List String :=
  if k ∈ ks then ks else ks ++ [k]

/-- The group keys in first-occurrence order. -/
def keysInOrder (rows : List DMetric) : List String :=
  rows.foldl (fun ks m => addKey ks (metricGroupKey m)) []

/-- Severity classification of a deviation percentage. -/
def severityOf (deviation : ℚ) : String :=
  if 50 ≤ |deviation| then "high" else if 30 ≤ |deviation| then "medium" else "low"

/-- The anomaly object pushed by `checkAnomaly`. -/
def mkAnomaly (latest : DMetric) (metricName : String) (expected actual : ℚ) : Anomaly :=
  { entityId := latest.entityId, entityType := latest.entityType
    metricName := metricName, expectedValue := expected, actualValue := actual
    deviationPercent := (actual - expected) / expected * 100
    severity := severityOf ((actual - expected) / expected * 100)
    date := latest.date }

/-- `checkAnomaly`: skip when the expected value is zero, emit when the
absolute deviation percentage reaches the threshold. -/
def checkAnomaly (latest : DMetric) (threshold : ℚ) (metricName : String)
    (expected actual : ℚ) : List Anomaly :=
  if expected = 0 then []
  else if threshold ≤ |(actual - expected) / expected * 100| then
    [mkAnomaly latest metricName expected actual]
  else []

/-- Unweighted mean of a list of rationals (0 for the empty list). -/
def histMean (l : List ℚ) : ℚ := l.sum / l.length

/-- Anomalies contributed by one entity group: groups with fewer than three
rows are skipped; the first row is `latest`, the rest are `historical`, and
spend, ctr, cpc, roas are checked in that order against the historical
means. -/
def groupAnomalies (g : List DMetric) (threshold : ℚ) : List Anomaly :=
  if g.length < 3 then []
  else
    match g with
    | [] => []
    | latest :: historical =>
      checkAnomaly latest threshold "spend" (histMean (historical.map DMetric.spend)) latest.spend
        ++ checkAnomaly latest threshold "ctr" (histMean (historical.map DMetric.ctr)) latest.ctr
        ++ checkAnomaly latest threshold "cpc" (histMean (historical.map DMetric.cpc)) latest.cpc
        ++ checkAnomaly latest threshold "roas" (histMean (historical.map DMetric.roas)) latest.roas

/-- The anomaly list before sorting: the per-group lists concatenated in
group-key insertion order. -/
def anomaliesUnsorted (rows : List DMetric) (threshold : ℚ) : List Anomaly :=
  (keysInOrder rows).bind (fun k =>
    groupAnomalies (rows.filter (fun m => decide (metricGroupKey m = k))) threshold)

/-- The numeric severity rank used by the sort comparator. -/
def severityOrder (s : String) : Nat :=
  if s = "high" then 3 else if s = "medium" then 2 else if s = "low" then 1 else 0

/-- The sort comparator: severity rank descending, then absolute deviation
descending (`a` may come before `b` iff the comparator value is ≤ 0). -/
def anomalyLE (a b : Anomaly) : Bool :=
  decide (severityOrder b.severity < severityOrder a.severity ∨
    (severityOrder b.severity = severityOrder a.severity ∧
     |b.deviationPercent| ≤ |a.deviationPercent|))

/-- The sorted anomaly list produced by the route. -/
def detectAnomalies (rows : List DMetric) (threshold : ℚ) : List Anomaly :=
  (anomaliesUnsorted rows threshold).mergeSort anomalyLE

/-- The route's JSON response: `total` and `explained` are absent on the
empty-metrics early return. -/
structure DetectResponse where
  anomalies : List Anomaly
  total : Option Nat
  explained : Option Nat
deriving DecidableEq

/-- The response assembly: top-20 truncation of the sorted list, `total` as
the pre-truncation count, `explained` as `min 5 top.length`; the
empty-metrics early return answers `{ anomalies: [] }` with no `total`. -/
def detectAnomaliesResponse (rows : List DMetric) (threshold : ℚ) : DetectResponse :=
  if rows.isEmpty then { anomalies := [], total := none, explained := none }
  else
    let sorted := detectAnomalies rows threshold
    let top := sorted.take 20
    { anomalies := top, total := some sorted.length
      explained := some (min 5 top.length) }

/-! ### The explanation loop over the top anomalies (C7) -/

/-- The explanation loop: the first `n` anomalies (the route uses `n = 5`)
are sent to the external explanation capability; on success the anomaly is
annotated with the explanation and persisted, on failure it is annotated
with the placeholder and NOT persisted (the `create` call sits after the
explanation call inside the same try block); remaining anomalies are
returned unannotated. Returns (annotated list, persisted records). -/
def processTop (explain : Anomaly → Except Unit String) :
    List Anomaly → Nat → List (Anomaly × Option String) × List (Anomaly × String)
  | [], _ => ([], [])
  | a :: rest, 0 => ((a, none) :: rest.map (fun x => (x, none)), [])
  | a :: rest, n + 1 =>
    match explain a with
    | .ok s =>
      let r := processTop explain rest n
      ((a, some s) :: r.1, (a, s) :: r.2)
    | .error _ =>
      let r := processTop explain rest n
      ((a, some "AI explanation unavailable") :: r.1, r.2)

/-- The route's explanation stage: explain limit 5. -/
def explainAnomalies (explain : Anomaly → Except Unit String)
    (tops : List Anomaly) : List (Anomaly × Option String) × List (Anomaly × String) :=
  processTop explain tops 5

/-- A concrete anomaly used in counterexamples. -/
def caAnomaly : Anomaly :=
  { entityId := "c1", entityType := "campaign", metricName := "spend"
    expectedValue := 10, actualValue := 25, deviationPercent := 150
    severity := "high", date := 7 }

lemma processTop_spec (explain : Anomaly → Except Unit String) :
    ∀ (tops : List Anomaly) (n : Nat),
    processTop explain tops n
      = ((tops.take n).map (fun a => (a, some (match explain a with
            | .ok s => s
            | .error _ => "AI explanation unavailable")))
          ++ (tops.drop n).map (fun a => (a, none)),
         (tops.take n).filterMap (fun a => match explain a with
            | .ok s => some (a, s)
            | .error _ => none)) := by
  intro tops
  induction tops with
  | nil => intro n; simp [processTop]
  | cons a rest ih =>
    intro n
    cases n with
    | zero => simp [processTop]
    | succ n =>
      cases hx : explain a with
      | ok s => simp [processTop, hx, ih n]
      | error e => simp [processTop, hx, ih n]

/-- C7 counterexample: a single top-ranked anomaly whose external
explanation fails is returned with the placeholder explanation but is NOT
persisted — the persisted list is empty, contradicting the claim that a
failing explanation never blocks that anomaly's persistence. -/
theorem explainAnomalies_claim_counterexample :
    (explainAnomalies (fun _ => .error ()) [caAnomaly]).2 = [] ∧
    (explainAnomalies (fun _ => .error ()) [caAnomaly]).1
      = [(caAnomaly, some "AI explanation unavailable")] := by
  constructor <;> rfl

/-- C7 (amended): a failing explanation does not abort the loop — every
top anomaly is still returned, the first five annotated (explanation text on
success, the placeholder on failure) and the rest unannotated — but exactly
the anomalies among the first five whose explanation succeeded are
persisted; an anomaly whose explanation failed is not stored. -/
theorem explainAnomalies_correct :
    ∀ (explain : Anomaly → Except Unit String) (tops : List Anomaly),
    ((explainAnomalies explain tops).1.map Prod.fst = tops) ∧
    (explainAnomalies explain tops).1
      = (tops.take 5).map (fun a => (a, some (match explain a with
            | .ok s => s
            | .error _ => "AI explanation unavailable")))
        ++ (tops.drop 5).map (fun a => (a, none)) ∧
    (explainAnomalies explain tops).2
      = (tops.take 5).filterMap (fun a => match explain a with
            | .ok s => some (a, s)
            | .error _ => none) := by
  intro explain tops
  have h := processTop_spec explain tops 5
  refine ⟨?_, ?_, ?_⟩
  · rw [explainAnomalies, h]
    rw [List.map_append, List.map_map, List.map_map]
    have h1 : (Prod.fst ∘ fun (a : Anomaly) =>
        (a, some (match explain a with
          | Except.ok s => s
          | Except.error _ => "AI explanation unavailable"))) = id := rfl
    have h2 : (Prod.fst ∘ fun (a : Anomaly) => (a, (none : Option String))) = id := rfl
    rw [h1, h2, List.map_id, List.map_id, List.take_append_drop]
  · rw [explainAnomalies, h]
  · rw [explainAnomalies, h]

/-! ### Sync route concurrency guard (src/backend/src/routes/sync.ts) -/

/-- The responses the trigger endpoint can produce. -/
inductive SyncResponse where
  | started
  | conflict409
  | serverError500
deriving DecidableEq

/-- Module state of the sync route (`syncInProgress`, `lastSyncResult`),
plus a ghost counter of syncs actually in flight. -/
structure RouteState where
  syncInProgress : Bool
  lastSyncResult : Option SyncResult
  running : Nat
deriving DecidableEq

/-- Route events: a POST /api/sync trigger, or completion of a running sync
(`some r` = `runFullSync` resolved with `r`, `none` = it threw and the
catch cleared the flag without caching a result). -/
inductive RouteEvent where
  | trigger
  | complete (result : Option SyncResult)

/-- Initial module state. -/
def initRouteState : RouteState :=
  { syncInProgress := false, lastSyncResult := none, running := 0 }

/-- One event step of the route: a trigger while a sync is in flight is
answered 409 and changes nothing; otherwise the flag is set and a sync
starts. Completion clears the flag and (on success) caches the result. -/
def routeStep (st : RouteState) : RouteEvent → RouteState × Option SyncResponse
  | .trigger =>
    if st.syncInProgress then (st, some .conflict409)
    else ({ st with syncInProgress := true, running := st.running + 1 }, some .started)
  | .complete r =>
    if st.running = 0 then (st, none)
    else
      ({ syncInProgress := false
         lastSyncResult := match r with | some res => some res | none => st.lastSyncResult
         running := st.running - 1 }, none)

/-- The state after a sequence of events from the initial state. -/
def runRoute (evts : List RouteEvent) : RouteState :=
  evts.foldl (fun st e => (routeStep st e).1) initRouteState

lemma routeStep_preserves (st : RouteState) (e : RouteEvent)
    (h : st.running = if st.syncInProgress then 1 else 0) :
    (routeStep st e).1.running
      = if (routeStep st e).1.syncInProgress then 1 else 0 := by
  cases e with
  | trigger =>
    by_cases hp : st.syncInProgress
    · simp [routeStep, hp, h]
    · simp [routeStep, hp] at h ⊢
      omega
  | complete r =>
    by_cases hp : st.syncInProgress
    · simp [hp] at h
      simp [routeStep, h]
    · simp [hp] at h
      simp [routeStep, h, hp]

/-- C6: a trigger that arrives while `syncInProgress` is set is answered
with the distinct 409 conflict response and leaves the whole module state —
flag, last-result cache and the set of running syncs — untouched; the 409
signal differs from the data-error (500) and from acceptance; and along any
event sequence from boot at most one sync is ever in flight. -/
theorem syncRoute_mutual_exclusion :
    (∀ st : RouteState, st.syncInProgress = true →
      routeStep st .trigger = (st, some .conflict409)) ∧
    (SyncResponse.conflict409 ≠ SyncResponse.serverError500 ∧
     SyncResponse.conflict409 ≠ SyncResponse.started) ∧
    (∀ evts : List RouteEvent,
      (runRoute evts).running = (if (runRoute evts).syncInProgress then 1 else 0) ∧
      (runRoute evts).running ≤ 1) := by
  refine ⟨?_, ⟨by decide, by decide⟩, ?_⟩
  · intro st h
    simp [routeStep, h]
  · intro evts
    have hinv : ∀ (l : List RouteEvent) (st : RouteState),
        st.running = (if st.syncInProgress then 1 else 0) →
        (l.foldl (fun s e => (routeStep s e).1) st).running
          = (if (l.foldl (fun s e => (routeStep s e).1) st).syncInProgress then 1 else 0) := by
      intro l
      induction l with
      | nil => intro st h; exact h
      | cons e rest ih =>
        intro st h
        exact ih _ (routeStep_preserves st e h)
    have h : (runRoute evts).running
        = (if (runRoute evts).syncInProgress then 1 else 0) :=
      hinv evts initRouteState (by simp [initRouteState])
    refine ⟨h, ?_⟩
    rw [h]
    by_cases hp : (runRoute evts).syncInProgress <;> simp [hp]

/-- Witness for C6: a trigger against a busy state is rejected with 409 and
the state is unchanged. -/
theorem syncRoute_mutual_exclusion_witness :
    routeStep { syncInProgress := true, lastSyncResult := none, running := 1 } .trigger
      = ({ syncInProgress := true, lastSyncResult := none, running := 1 },
         some .conflict409) :=
  syncRoute_mutual_exclusion.1 _ rfl

/-! ### C10: top-20 truncation and the `total` field -/

/-- C10 counterexample: on the empty-metrics early return (`res.json(\x7b
anomalies: [] \x7d)`) the response has NO `total` field at all, so the claim
that every invocation's response reports the pre-truncation count in
`total` fails at the empty input. -/
theorem detectResponse_total_counterexample :
    (detectAnomaliesResponse [] 20).total = none ∧
    (detectAnomaliesResponse [] 20).anomalies = [] ∧
    (detectAnomaliesResponse [] 20).total ≠ some (detectAnomalies [] 20).length := by
  refine ⟨rfl, rfl, by decide⟩

/-- C10 (amended): the anomalies array is always the sorted list truncated
to the top 20 (hence holds at most 20 entries), and whenever any metric
rows were found — the only case in which the main path runs — `total`
reports the full pre-truncation count; only the empty-metrics early return
omits `total`. -/
theorem detectResponse_top20 :
    (∀ (rows : List DMetric) (t : ℚ),
      (detectAnomaliesResponse rows t).anomalies.length ≤ 20) ∧
    (∀ (rows : List DMetric) (t : ℚ),
      (detectAnomaliesResponse rows t).anomalies = (detectAnomalies rows t).take 20) ∧
    (∀ (rows : List DMetric) (t : ℚ), rows ≠ [] →
      (detectAnomaliesResponse rows t).total = some (detectAnomalies rows t).length) := by
  refine ⟨?_, ?_, ?_⟩
  · intro rows t
    by_cases h : rows.isEmpty
    · simp [detectAnomaliesResponse, h]
    · simp only [detectAnomaliesResponse, h, Bool.false_eq_true, if_false]
      rw [List.length_take]
      exact min_le_left _ _
  · intro rows t
    by_cases h : rows.isEmpty
    · have hnil : rows = [] := List.isEmpty_iff.mp h
      subst hnil
      have hdet : detectAnomalies [] t = [] := by
        have hp := List.mergeSort_perm (anomaliesUnsorted [] t) anomalyLE
        have h0 : anomaliesUnsorted [] t = [] := rfl
        rw [h0] at hp
        exact List.Perm.eq_nil hp
      simp [detectAnomaliesResponse, hdet]
    · simp [detectAnomaliesResponse, h]
  · intro rows t h
    have hne : rows.isEmpty = false := by
      cases rows with
      | nil => exact absurd rfl h
      | cons x xs => rfl
    simp [detectAnomaliesResponse, hne]

/-- Witness for C10's amended theorem at a concrete nonempty row list. -/
theorem detectResponse_top20_witness :
    (detectAnomaliesResponse
        [{ entityType := "campaign", entityId := "c1", date := 1,
           spend := 3, ctr := 1, cpc := 1, roas := 1 }] 20).total
      = some (detectAnomalies
        [{ entityType := "campaign", entityId := "c1", date := 1,
           spend := 3, ctr := 1, cpc := 1, roas := 1 }] 20).length :=
  detectResponse_top20.2.2 _ 20 (by simp)

/-! ### C5: the anomaly detector against the specified algorithm -/

/-- The four checked metrics, in the order the route checks them. -/
def metricFields : List (String × (DMetric → ℚ)) :=
  [("spend", DMetric.spend), ("ctr", DMetric.ctr),
   ("cpc", DMetric.cpc), ("roas", DMetric.roas)]

/-- The sort order of the output: severity rank descending, then absolute
deviation percentage descending. -/
def SevDevOrder (a b : Anomaly) : Prop :=
  severityOrder b.severity < severityOrder a.severity ∨
    (severityOrder b.severity = severityOrder a.severity ∧
     |b.deviationPercent| ≤ |a.deviationPercent|)

/-- No two rows build the same group-key string without agreeing on both
entityType and entityId (entity ids containing an underscore could
otherwise collide across types). -/
def KeyInj (rows : List DMetric) : Prop :=
  ∀ m ∈ rows, ∀ m2 ∈ rows, metricGroupKey m = metricGroupKey m2 →
    m.entityType = m2.entityType ∧ m.entityId = m2.entityId

/-- The rows arrive ordered by date descending (the route queries
`orderBy date desc`). -/
def DateSorted (rows : List DMetric) : Prop :=
  rows.Pairwise (fun x y => y.date ≤ x.date)

/-- The claim's description of an emitted anomaly: partition by
(entityType, entityId), group of at least 3 rows, the most recent row as
latest, unweighted historical means, deviation `100*(latest-expected)/expected`
for a metric with nonzero expected mean, emitted iff `|deviation| ≥ threshold`,
severity by the 50/30 cutoffs. -/
def SpecAnomaly (rows : List DMetric) (threshold : ℚ) (a : Anomaly) : Prop :=
  ∃ latest historical,
    rows.filter (fun m =>
        decide (m.entityType = latest.entityType ∧ m.entityId = latest.entityId))
      = latest :: historical ∧
    3 ≤ (latest :: historical : List DMetric).length ∧
    (∀ m ∈ historical, m.date ≤ latest.date) ∧
    ∃ p ∈ metricFields,
      histMean (historical.map p.2) ≠ 0 ∧
      threshold ≤ |100 * (p.2 latest - histMean (historical.map p.2))
        / histMean (historical.map p.2)| ∧
      a = { entityId := latest.entityId, entityType := latest.entityType
            metricName := p.1
            expectedValue := histMean (historical.map p.2)
            actualValue := p.2 latest
            deviationPercent := 100 * (p.2 latest - histMean (historical.map p.2))
              / histMean (historical.map p.2)
            severity := severityOf (100 * (p.2 latest - histMean (historical.map p.2))
              / histMean (historical.map p.2))
            date := latest.date }

/-- The spec's five-row example: historical spends 10, 12, 11, 13 and a
latest spend of 23, with the other metrics flat. -/
def exampleRows : List DMetric :=
  [{ entityType := "campaign", entityId := "c1", date := 5,
     spend := 23, ctr := 1, cpc := 1, roas := 1 },
   { entityType := "campaign", entityId := "c1", date := 4,
     spend := 10, ctr := 1, cpc := 1, roas := 1 },
   { entityType := "campaign", entityId := "c1", date := 3,
     spend := 12, ctr := 1, cpc := 1, roas := 1 },
   { entityType := "campaign", entityId := "c1", date := 2,
     spend := 11, ctr := 1, cpc := 1, roas := 1 },
   { entityType := "campaign", entityId := "c1", date := 1,
     spend := 13, ctr := 1, cpc := 1, roas := 1 }]

/-- The anomaly the example must produce: mean 11.5, deviation 100%,
severity high. -/
def exampleAnomaly : Anomaly :=
  { entityId := "c1", entityType := "campaign", metricName := "spend"
    expectedValue := 23 / 2, actualValue := 23, deviationPercent := 100
    severity := "high", date := 5 }

lemma dev_formula (x e : ℚ) : (x - e) / e * 100 = 100 * (x - e) / e := by ring

lemma mem_checkAnomaly (latest : DMetric) (t : ℚ) (name : String) (e act : ℚ) (a : Anomaly) :
    a ∈ checkAnomaly latest t name e act
      ↔ e ≠ 0 ∧ t ≤ |(act - e) / e * 100| ∧ a = mkAnomaly latest name e act := by
  unfold checkAnomaly
  by_cases h : e = 0
  · simp [h]
  · by_cases ht : t ≤ |(act - e) / e * 100|
    · simp [h, ht]
    · simp [h, ht]

lemma mem_groupAnomalies (g : List DMetric) (t : ℚ) (a : Anomaly) :
    a ∈ groupAnomalies g t
      ↔ 3 ≤ g.length ∧ ∃ latest historical, g = latest :: historical ∧
          ∃ p ∈ metricFields,
            histMean (historical.map p.2) ≠ 0 ∧
            t ≤ |(p.2 latest - histMean (historical.map p.2))
              / histMean (historical.map p.2) * 100| ∧
            a = mkAnomaly latest p.1 (histMean (historical.map p.2)) (p.2 latest) := by
  unfold groupAnomalies
  by_cases hlen : g.length < 3
  · rw [if_pos hlen]
    simp only [List.not_mem_nil, false_iff, not_and]
    intro h3
    exact absurd h3 (by omega)
  · rw [if_neg hlen]
    cases g with
    | nil => simp at hlen
    | cons latest historical =>
      simp only [List.mem_append, mem_checkAnomaly]
      constructor
      · intro hmem
        have h3 : 3 ≤ (latest :: historical).length := by omega
        refine ⟨h3, latest, historical, rfl, ?_⟩
        rcases hmem with ((⟨hne, ht, ha⟩ | ⟨hne, ht, ha⟩) | ⟨hne, ht, ha⟩) | ⟨hne, ht, ha⟩
        · exact ⟨("spend", DMetric.spend), by simp [metricFields], hne, ht, ha⟩
        · exact ⟨("ctr", DMetric.ctr), by simp [metricFields], hne, ht, ha⟩
        · exact ⟨("cpc", DMetric.cpc), by simp [metricFields], hne, ht, ha⟩
        · exact ⟨("roas", DMetric.roas), by simp [metricFields], hne, ht, ha⟩
      · rintro ⟨h3, l2, h2, heq, p, hp, hne, ht, ha⟩
        injection heq with he1 he2
        subst he1
        subst he2
        simp only [metricFields, List.mem_cons, List.not_mem_nil, or_false] at hp
        rcases hp with rfl | rfl | rfl | rfl
        · exact Or.inl (Or.inl (Or.inl ⟨hne, ht, ha⟩))
        · exact Or.inl (Or.inl (Or.inr ⟨hne, ht, ha⟩))
        · exact Or.inl (Or.inr ⟨hne, ht, ha⟩)
        · exact Or.inr ⟨hne, ht, ha⟩

lemma mem_addKey (ks : List String) (k k' : String) :
    k ∈ addKey ks k' ↔ k ∈ ks ∨ k' = k := by
  unfold addKey
  by_cases h : k' ∈ ks
  · rw [if_pos h]
    exact ⟨Or.inl, fun hor => hor.elim id (fun he => he ▸ h)⟩
  · rw [if_neg h]
    simp [eq_comm]

lemma mem_keysInOrder (rows : List DMetric) (k : String) :
    k ∈ keysInOrder rows ↔ ∃ m ∈ rows, metricGroupKey m = k := by
  have hgen : ∀ (l : List DMetric) (acc : List String),
      (k ∈ l.foldl (fun ks m => addKey ks (metricGroupKey m)) acc)
        ↔ (k ∈ acc ∨ ∃ m ∈ l, metricGroupKey m = k) := by
    intro l
    induction l with
    | nil => intro acc; simp
    | cons m rest ih =>
      intro acc
      rw [List.foldl_cons, ih, mem_addKey]
      simp only [List.mem_cons]
      constructor
      · rintro ((h | h) | ⟨m2, hm2, hk2⟩)
        · exact Or.inl h
        · exact Or.inr ⟨m, Or.inl rfl, h⟩
        · exact Or.inr ⟨m2, Or.inr hm2, hk2⟩
      · rintro (h | ⟨m2, (rfl | hm2), hk2⟩)
        · exact Or.inl (Or.inl h)
        · exact Or.inl (Or.inr hk2)
        · exact Or.inr ⟨m2, hm2, hk2⟩
  have h := hgen rows []
  rw [keysInOrder]
  rw [h]
  simp

lemma filter_pair_eq_filter_key (rows : List DMetric) (latest : DMetric)
    (hinj : KeyInj rows) (hl : latest ∈ rows) :
    rows.filter (fun m =>
        decide (m.entityType = latest.entityType ∧ m.entityId = latest.entityId))
      = rows.filter (fun m => decide (metricGroupKey m = metricGroupKey latest)) := by
  apply List.filter_congr
  intro m hm
  rw [decide_eq_decide]
  constructor
  · rintro ⟨h1, h2⟩
    unfold metricGroupKey
    rw [h1, h2]
  · intro h
    exact hinj m hm latest hl h

lemma anomalyLE_trans : ∀ a b c : Anomaly,
    anomalyLE a b = true → anomalyLE b c = true → anomalyLE a c = true := by
  intro a b c hab hbc
  simp only [anomalyLE, decide_eq_true_eq] at hab hbc ⊢
  rcases hab with h1 | ⟨h1, h2⟩ <;> rcases hbc with h3 | ⟨h3, h4⟩
  · exact Or.inl (h3.trans h1)
  · exact Or.inl (h3.trans_lt h1)
  · exact Or.inl (h3.trans_eq h1)
  · exact Or.inr ⟨h3.trans h1, h4.trans h2⟩

lemma anomalyLE_total : ∀ a b : Anomaly, (anomalyLE a b || anomalyLE b a) = true := by
  intro a b
  simp only [anomalyLE, Bool.or_eq_true, decide_eq_true_eq]
  rcases lt_trichotomy (severityOrder b.severity) (severityOrder a.severity) with h | h | h
  · exact Or.inl (Or.inl h)
  · rcases le_total |b.deviationPercent| |a.deviationPercent| with h2 | h2
    · exact Or.inl (Or.inr ⟨h, h2⟩)
    · exact Or.inr (Or.inr ⟨h.symm, h2⟩)
  · exact Or.inr (Or.inl h)

/-- C5: the detector's output is sorted by severity rank descending then
absolute deviation descending; under the stated input conditions (distinct
entities build distinct group keys, rows ordered by date descending) an
anomaly is emitted exactly as the spec describes — groups of fewer than 3
rows are skipped, the most recent row is compared against the unweighted
historical means of spend/ctr/cpc/roas, a metric with zero expected mean is
skipped, `deviation% = 100*(latest-expected)/expected`, emission iff
`|deviation%| ≥ threshold`, severity high/medium/low at the 50/30 cutoffs —
and the spec's worked example (historical spends 10, 12, 11, 13, latest 23)
yields exactly one anomaly with deviation 100% and severity high. -/
theorem detectAnomalies_correct :
    (∀ (rows : List DMetric) (t : ℚ),
      List.Pairwise SevDevOrder (detectAnomalies rows t)) ∧
    (∀ (rows : List DMetric) (t : ℚ) (a : Anomaly), KeyInj rows → DateSorted rows →
      (a ∈ detectAnomalies rows t ↔ SpecAnomaly rows t a)) ∧
    detectAnomalies exampleRows 20 = [exampleAnomaly] := by
  refine ⟨?_, ?_, ?_⟩
  case refine_3 =>
    have happ : "campaign" ++ "_" ++ "c1" = "campaign_c1" := by decide
    have hkeys : keysInOrder exampleRows = ["campaign_c1"] := by
      norm_num [keysInOrder, exampleRows, addKey, metricGroupKey,
        List.foldl_cons, List.foldl_nil, happ]
    have hfilter : exampleRows.filter
        (fun m => decide (metricGroupKey m = "campaign_c1")) = exampleRows := by
      norm_num [exampleRows, metricGroupKey, List.filter, happ]
    have hga : groupAnomalies exampleRows 20 = [exampleAnomaly] := by
      norm_num [groupAnomalies, exampleRows, checkAnomaly, mkAnomaly, histMean,
        severityOf, exampleAnomaly]
    have h1 : anomaliesUnsorted exampleRows 20 = [exampleAnomaly] := by
      rw [anomaliesUnsorted, hkeys]
      simp only [List.cons_bind, List.nil_bind, List.append_nil]
      rw [hfilter, hga]
    rw [detectAnomalies, h1]
    exact List.perm_singleton.mp (List.mergeSort_perm [exampleAnomaly] anomalyLE)
  · intro rows t
    have h := List.sorted_mergeSort anomalyLE_trans anomalyLE_total (anomaliesUnsorted rows t)
    exact h.imp (fun hab => by
      simpa only [anomalyLE, decide_eq_true_eq, SevDevOrder] using hab)
  · intro rows t a hinj hsort
    have hperm : a ∈ detectAnomalies rows t ↔ a ∈ anomaliesUnsorted rows t :=
      (List.mergeSort_perm (anomaliesUnsorted rows t) anomalyLE).mem_iff
    rw [hperm, anomaliesUnsorted, List.mem_bind]
    constructor
    · rintro ⟨k, hk, hga⟩
      rw [mem_groupAnomalies] at hga
      obtain ⟨h3, latest, historical, hg, p, hp, hne, ht, ha⟩ := hga
      have hlatf : latest ∈ rows.filter (fun m => decide (metricGroupKey m = k)) := by
        rw [hg]
        exact List.mem_cons_self _ _
      have hlat : latest ∈ rows := (List.mem_filter.mp hlatf).1
      have hlatk : metricGroupKey latest = k := by
        have h := (List.mem_filter.mp hlatf).2
        simpa using h
      have hfe : rows.filter (fun m =>
          decide (m.entityType = latest.entityType ∧ m.entityId = latest.entityId))
            = latest :: historical := by
        rw [filter_pair_eq_filter_key rows latest hinj hlat, hlatk, hg]
      have hdates : ∀ m ∈ historical, m.date ≤ latest.date := by
        have hps := List.Pairwise.filter
          (fun m => decide (metricGroupKey m = k)) hsort
        rw [hg] at hps
        exact fun m hm => (List.pairwise_cons.mp hps).1 m hm
      refine ⟨latest, historical, hfe, by rw [← hg]; exact h3, hdates, p, hp, hne, ?_, ?_⟩
      · rw [← dev_formula]
        exact ht
      · rw [ha]
        simp only [mkAnomaly, dev_formula]
    · rintro ⟨latest, historical, hfe, h3, hdates, p, hp, hne, ht, ha⟩
      have hlatf : latest ∈ rows.filter (fun m =>
          decide (m.entityType = latest.entityType ∧ m.entityId = latest.entityId)) := by
        rw [hfe]
        exact List.mem_cons_self _ _
      have hlat : latest ∈ rows := (List.mem_filter.mp hlatf).1
      have hk : metricGroupKey latest ∈ keysInOrder rows :=
        (mem_keysInOrder rows _).mpr ⟨latest, hlat, rfl⟩
      refine ⟨metricGroupKey latest, hk, ?_⟩
      rw [mem_groupAnomalies]
      have hfe2 : rows.filter (fun m =>
          decide (metricGroupKey m = metricGroupKey latest)) = latest :: historical := by
        rw [← filter_pair_eq_filter_key rows latest hinj hlat]
        exact hfe
      refine ⟨by rw [hfe2]; exact h3, latest, historical, hfe2, p, hp, hne, ?_, ?_⟩
      · rw [dev_formula]
        exact ht
      · rw [ha]
        simp only [mkAnomaly, dev_formula]

/-- Witness for C5: the spec's example rows satisfy the input conditions
and their spend anomaly is characterised by the specified algorithm. -/
theorem detectAnomalies_correct_witness :
    SpecAnomaly exampleRows 20 exampleAnomaly :=
  (detectAnomalies_correct.2.1 exampleRows 20 exampleAnomaly
      (by
        intro m hm m2 hm2 h
        simp only [exampleRows, List.mem_cons, List.not_mem_nil, or_false] at hm hm2
        rcases hm with rfl | rfl | rfl | rfl | rfl <;>
          rcases hm2 with rfl | rfl | rfl | rfl | rfl <;>
          exact ⟨rfl, rfl⟩)
      (by
        unfold DateSorted exampleRows
        norm_num [List.pairwise_cons])).mp
    (by rw [detectAnomalies_correct.2.2]; exact List.mem_singleton_self _)
